import Mathlib

/-!
Verification development for the PromptyDumpty core: a shallow embedding of
`dumpty/installer.py`, `dumpty/agents/base.py`, `dumpty/agents/registry.py`,
the concrete agent adapters, and the update-selection flow, with theorems
settling the specified properties of install/uninstall orchestration.

Paths are modelled as lists of components (Python `pathlib.Path` joining with
`/` appends components without resolving `..`).  The filesystem is modelled as
an association list from paths to file contents; bytes are `List Nat`.
-/

namespace Dumpty

/-- A filesystem path, as its list of components.  `a / b` is `a ++ b`. -/
abbrev FsPath := List String

/-- File contents (a byte string). -/
abbrev Content := List Nat

/-- Filesystem state: the set of regular files, each with its content.
Directories exist implicitly as prefixes of file paths (`mkdir(parents=True)`
in the source creates them on demand, and `shutil.rmtree` removes a subtree
wholesale, so file paths determine the relevant state). -/
abbrev FS := List (FsPath × Content)

/-- Writing a file: overwrite any entry at the same path (`shutil.copy2`
overwrites an existing destination). -/
def fsWrite (fs : FS) (p : FsPath) (c : Content) : FS :=
  (p, c) :: fs.filter (fun e => e.1 ≠ p)

/-- Left-to-right normalisation of `..`/`.` components over an accumulator,
used only to express whether a joined path escapes a directory (the OS
resolves these at access time; the Python source never does). -/
def normAux (acc : FsPath) : FsPath → FsPath
  | [] => acc
  | c :: rest =>
    if c = ".." then normAux acc.dropLast rest
    else if c = "." then normAux acc rest
    else normAux (acc ++ [c]) rest

/-- Normalise a path: resolve `..` and `.` components left to right. -/
def normalizePath (p : FsPath) : FsPath := normAux [] p

/-- A path escapes a directory when its normal form does not stay under it. -/
def escapesDir (dir : FsPath) (p : FsPath) : Bool :=
  ¬ (normalizePath dir).isPrefixOf (normalizePath p)

/-- The agent adapter contract of `dumpty/agents/base.py` (`BaseAgent`): name,
display name, default directory, supported artifact groups (default `[]`), and
the group→folder mapping `get_group_folder` (default identity; adapters may
override, per the docstring of `BaseAgent.get_group_folder`). -/
structure AgentImpl where
  name : String
  display_name : String
  directory : String
  SUPPORTED_GROUPS : List String := []
  get_group_folder : String → String := id

/-- `BaseAgent.validate_artifact_group`: membership in `SUPPORTED_GROUPS`. -/
def validate_artifact_group (a : AgentImpl) (group : String) : Bool :=
  a.SUPPORTED_GROUPS.contains group

/-- Modelled from the spec: `calculate_checksum` lives in `dumpty/utils.py`,
which is not among the available sources; the spec fixes it as a pure, strong
content checksum of the destination file, algorithm-tagged
(`sha256:<hex>`).  Only its functional dependence on the content matters to
the claims, so the digest is stood in for by a tagged injective rendering. -/
def calculate_checksum (c : Content) : String :=
  "sha256:" ++ toString c

/-- `FileInstaller.install_file` (installer.py:22-63): builds
`package_dir = agent_dir / group / package_name` when a group is given (the
group string itself — `get_group_folder` is not consulted), else
`agent_dir / package_name`; destination is `package_dir / installed_path`;
creates parents, copies (overwriting), and returns the destination path with
the checksum of the copied content.  `sourceContent` is the content of
`source_file`. -/
def install_file (fs : FS) (project_root : FsPath) (sourceContent : Content)
    (agent : AgentImpl) (package_name : String) (installed_path : FsPath)
    (group : Option String) : FS × FsPath × String :=
  let agent_dir := project_root ++ [agent.directory]
  let package_dir :=
    match group with
    | some g => agent_dir ++ [g, package_name]
    | none => agent_dir ++ [package_name]
  let dest_file := package_dir ++ installed_path
  let fs2 := fsWrite fs dest_file sourceContent
  (fs2, dest_file, calculate_checksum sourceContent)

/-- The package directory `install_file` computes (installer.py:47-50). -/
def install_file_package_dir (project_root : FsPath) (agent : AgentImpl)
    (package_name : String) (group : Option String) : FsPath :=
  match group with
  | some g => project_root ++ [agent.directory, g, package_name]
  | none => project_root ++ [agent.directory, package_name]

/-- Destination resolution as the spec words it (§4.3 step 2): the package
directory uses `agent.get_group_folder(group)`, not the raw group name.  This
definition follows the spec, for comparison against `install_file`. -/
def resolve_dest_spec (project_root : FsPath) (agent : AgentImpl)
    (package_name : String) (installed_path : FsPath)
    (group : Option String) : FsPath :=
  let agent_dir := project_root ++ [agent.directory]
  let package_dir :=
    match group with
    | some g => agent_dir ++ [agent.get_group_folder g, package_name]
    | none => agent_dir ++ [package_name]
  package_dir ++ installed_path

/-! ## Orchestration: `install_package` and `uninstall_package`

The hook calls and file mutations of one orchestrator call are recorded as an
event trace, in the order the Python source performs them.  A source file
whose content is unavailable makes the copy raise (`shutil.copy2` propagates
I/O errors), modelled as `content = none`; the exception aborts the loop and
propagates to the caller. -/

/-- One observable action of the orchestrator.  Hook events carry the
arguments the source passes: `install_package` passes the single path
`agent_dir / package_name` as the directory argument (installer.py:87,99,110),
recorded verbatim in `dirArg`. -/
inductive Event where
  | preInstallEv (dirArg : FsPath) (files : List FsPath)
  | copyEv (dest : FsPath)
  | postInstallEv (dirArg : FsPath) (files : List FsPath)
  | preUninstallEv (dirArg : FsPath) (files : List FsPath)
  | removeTreeEv (dir : FsPath)
  | postUninstallEv (dirArg : FsPath) (files : List FsPath)
  deriving DecidableEq, Repr

/-- One entry of `install_package`'s `source_files` list: the source file's
content (`none` when reading it raises), the manifest-declared installed
path, and the optional group (installer.py:67). -/
structure SrcFile where
  content : Option Content
  installed_path : FsPath
  group : Option String
  deriving DecidableEq, Repr

/-- The planned project-root-relative paths `install_package` computes for the
hooks (installer.py:90-96). -/
def install_paths (agent : AgentImpl) (package_name : String)
    (source_files : List SrcFile) : List FsPath :=
  source_files.map fun f =>
    match f.group with
    | some g => [agent.directory, g, package_name] ++ f.installed_path
    | none => [agent.directory, package_name] ++ f.installed_path

/-- The copy loop of `install_package` (installer.py:102-107): each file goes
through `install_file`; a raising copy aborts the loop, leaving earlier
copies in place, and the error propagates. -/
def install_loop (project_root : FsPath) (agent : AgentImpl)
    (package_name : String) :
    FS → List SrcFile → List Event × Except Unit (FS × List (FsPath × String))
  | fs, [] => ([], .ok (fs, []))
  | fs, f :: rest =>
    match f.content with
    | none => ([], .error ())
    | some c =>
      let r := install_file fs project_root c agent package_name
        f.installed_path f.group
      let rec2 := install_loop project_root agent package_name r.1 rest
      (Event.copyEv r.2.1 :: rec2.1,
        rec2.2.map fun s => (s.1, (r.2.1, r.2.2) :: s.2))

/-- `FileInstaller.install_package` (installer.py:65-112): computes
`install_dir = agent_dir / package_name`, the planned relative paths, calls
`pre_install`, copies every file via `install_file`, then calls
`post_install`; a copy failure propagates and `post_install` is not called.
Returns the event trace and either the final filesystem with the
(destination, checksum) results, or the propagated error. -/
def install_package (fs : FS) (project_root : FsPath) (agent : AgentImpl)
    (package_name : String) (source_files : List SrcFile) :
    List Event × Except Unit (FS × List (FsPath × String)) :=
  let agent_dir := project_root ++ [agent.directory]
  let install_dir := agent_dir ++ [package_name]
  let paths := install_paths agent package_name source_files
  let body := install_loop project_root agent package_name fs source_files
  match body.2 with
  | .ok s =>
    (Event.preInstallEv install_dir paths :: body.1
        ++ [Event.postInstallEv install_dir paths], .ok s)
  | .error e => (Event.preInstallEv install_dir paths :: body.1, .error e)

/-- The set of distinct package directories touched by one install call, as
the spec words it (§4.3 step 4): one per group in use, or the single flat
directory.  This definition follows the spec, for comparison against the
directory argument `install_package` passes to the hooks. -/
def spec_install_dirs (project_root : FsPath) (agent : AgentImpl)
    (package_name : String) (source_files : List SrcFile) : List FsPath :=
  (source_files.map fun f =>
    install_file_package_dir project_root agent package_name f.group).dedup

/-- Whether the package directory "exists" for `uninstall_package`
(installer.py:125): some file lies at or under it. -/
def dirOccupied (fs : FS) (dir : FsPath) : Bool :=
  fs.any fun e => dir.isPrefixOf e.1

/-- `FileInstaller.uninstall_package` (installer.py:114-149): if
`package_dir` does not exist, return at once (no hooks, no mutation);
otherwise list the files under it (project-root-relative when possible,
absolute fallback), call `pre_uninstall`, remove the subtree, call
`post_uninstall`. -/
def uninstall_package (fs : FS) (project_root : FsPath) (agent : AgentImpl)
    (package_name : String) : FS × List Event :=
  let package_dir := project_root ++ [agent.directory, package_name]
  if dirOccupied fs package_dir then
    let uninstall_paths :=
      (fs.filter fun e => package_dir.isPrefixOf e.1).map fun e =>
        if project_root.isPrefixOf e.1 then e.1.drop project_root.length
        else e.1
    let fs2 := fs.filter fun e => !(package_dir.isPrefixOf e.1)
    (fs2,
      [Event.preUninstallEv package_dir uninstall_paths,
       Event.removeTreeEv package_dir,
       Event.postUninstallEv package_dir uninstall_paths])
  else (fs, [])

/-! ## Agent registry (`dumpty/agents/registry.py`) -/

/-- A registration error of `AgentRegistry.register`: `TypeError` for a
non-conforming argument, `ValueError` for a duplicate name. -/
inductive RegErr where
  | typeErr
  | dupErr (name : String)
  deriving DecidableEq, Repr

/-- An argument handed to `register`: either an object implementing the
`BaseAgent` contract, or any other object (failing `isinstance`). -/
inductive RegArg where
  | agentObj (a : AgentImpl)
  | nonAgent

/-- Python's `str.lower()`: case-fold each character. -/
def strToLower (s : String) : String :=
  ⟨s.data.map Char.toLower⟩

/-- The registry table: insertion-ordered map from case-folded name to agent
(the `_agents` dict). -/
structure AgentRegistry where
  agents : List (String × AgentImpl)

/-- `AgentRegistry.register` (registry.py:19-37): raises `TypeError` when the
argument is not a `BaseAgent`; case-folds the name; raises `ValueError` when
the name is already a key; otherwise inserts.  A raise leaves the table
unchanged, so the result pairs the (possibly unchanged) table with the
raised error, if any. -/
def register (reg : AgentRegistry) (arg : RegArg) :
    AgentRegistry × Option RegErr :=
  match arg with
  | .nonAgent => (reg, some .typeErr)
  | .agentObj a =>
    let name := strToLower a.name
    if (reg.agents.map Prod.fst).contains name then
      (reg, some (.dupErr name))
    else ({ agents := reg.agents ++ [(name, a)] }, none)

/-! ## Concrete adapters and detection (`dumpty/agents/{base,claude,copilot}.py`) -/

/-- `BaseAgent.SUPPORTED_GROUPS` (base.py:12): the empty list. -/
def baseSUPPORTED_GROUPS : List String := []

/-- `CopilotAgent.SUPPORTED_TYPES` (copilot.py:21): the attribute the Copilot
adapter declares its artifact categories in. -/
def copilotSUPPORTED_TYPES : List String :=
  ["files", "prompts", "agents", "instructions", "chatmodes"]

/-- `CopilotAgent` as an `AgentImpl`: it defines no `SUPPORTED_GROUPS` of its
own, so it inherits `BaseAgent.SUPPORTED_GROUPS`; `get_group_folder` is the
inherited identity. -/
def copilotAgent : AgentImpl :=
  { name := "copilot"
    display_name := "GitHub Copilot"
    directory := ".github"
    SUPPORTED_GROUPS := baseSUPPORTED_GROUPS }

/-- `ClaudeAgent` as an `AgentImpl` (claude.py). -/
def claudeAgent : AgentImpl :=
  { name := "claude"
    display_name := "Claude"
    directory := ".claude"
    SUPPORTED_GROUPS := baseSUPPORTED_GROUPS }

/-- What a filesystem path currently is: a regular file or a directory. -/
inductive NodeKind where
  | file
  | dir
  deriving DecidableEq, Repr

/-- Directory-structure view of a filesystem for the detection predicate:
each path's node kind, absent paths unlisted. -/
abbrev FsTree := List (FsPath × NodeKind)

/-- The kind of the node at a path, `none` when nothing exists there. -/
def pathKind (t : FsTree) (p : FsPath) : Option NodeKind :=
  (t.find? fun e => e.1 = p).map (·.2)

/-- `Path.exists()` on the tree view. -/
def pathExists (t : FsTree) (p : FsPath) : Bool :=
  (pathKind t p).isSome

/-- `Path.is_dir()` on the tree view. -/
def pathIsDir (t : FsTree) (p : FsPath) : Bool :=
  pathKind t p == some .dir

/-- `ClaudeAgent.is_configured` (claude.py:25-36):
`agent_dir.exists() and agent_dir.is_dir()` for
`agent_dir = project_root / ".claude"`. -/
def claude_is_configured (t : FsTree) (project_root : FsPath) : Bool :=
  let agent_dir := project_root ++ [claudeAgent.directory]
  pathExists t agent_dir && pathIsDir t agent_dir

/-! ## Update target-version selection (§4.5)

Modelled from the spec: the `update` command is absent from the available
sources (`dumpty/cli.py` holds only the group and `hello`; only its tests
exist under `src/tests/test_cli_update.py`).  Per §4.5 and §6: tags such as
`refs/tags/vX.Y.Z` have their prefixes stripped and are parsed as semantic
versions; an explicit requested version must be present among the tags or the
flow ends in a "version not found" state without mutating the lockfile; with
no explicit version the highest tag by semantic-version ordering is selected;
no tags at all ends in "no version tags found" with no mutation; a target
equal to the installed version is "already up to date" with no mutation. -/

/-- A semantic version. -/
structure Semver where
  major : Nat
  minor : Nat
  patch : Nat
  deriving DecidableEq, Repr

/-- Render a semver back to its dotted string. -/
def Semver.render (v : Semver) : String :=
  toString v.major ++ "." ++ toString v.minor ++ "." ++ toString v.patch

/-- Semantic-version ordering (major, then minor, then patch). -/
def Semver.lt (a b : Semver) : Bool :=
  a.major < b.major ∨
    (a.major = b.major ∧
      (a.minor < b.minor ∨ (a.minor = b.minor ∧ a.patch < b.patch)))

/-- Strip a leading prefix from a character list when present. -/
def stripPre (pre cs : List Char) : List Char :=
  if pre.isPrefixOf cs then cs.drop pre.length else cs

/-- Strip a tag's `refs/tags/` and `v` prefixes. -/
def stripTag (s : String) : List Char :=
  stripPre ['v'] (stripPre "refs/tags/".data s.data)

/-- Split a character list on `.`. -/
def splitDots : List Char → List (List Char)
  | [] => [[]]
  | c :: rest =>
    if c = '.' then [] :: splitDots rest
    else
      match splitDots rest with
      | [] => [[c]]
      | h :: t => (c :: h) :: t

/-- Read a nonempty run of decimal digits as a number. -/
def charsToNat? (cs : List Char) : Option Nat :=
  match cs with
  | [] => none
  | _ =>
    cs.foldl (fun acc c =>
      acc.bind fun n =>
        if c.isDigit then some (n * 10 + (c.toNat - '0'.toNat)) else none)
      (some 0)

/-- Parse dotted `X.Y.Z` characters as a semantic version. -/
def parseSemverChars (cs : List Char) : Option Semver :=
  match (splitDots cs).mapM charsToNat? with
  | some [a, b, c] => some ⟨a, b, c⟩
  | _ => none

/-- Parse a dotted `X.Y.Z` string as a semantic version. -/
def parseSemver (s : String) : Option Semver :=
  parseSemverChars s.data

/-- Parse a fetched tag (prefix-stripped) as a semantic version. -/
def parseTag (s : String) : Option Semver :=
  parseSemverChars (stripTag s)

/-- The highest of a list of semvers, `none` when empty. -/
def maxSemver (vs : List Semver) : Option Semver :=
  vs.foldl (fun acc v =>
    match acc with
    | none => some v
    | some m => if Semver.lt m v then some v else some m) none

/-- Outcome of one update call for one package. -/
inductive UpdateOutcome where
  | updated (v : Semver)
  | upToDate
  | versionNotFound
  | noTagsFound
  deriving DecidableEq, Repr

/-- Modelled from the spec (§4.5 state machine): select the target version
from the fetched tags and the optional explicit request, then compare with
the installed version; returns the outcome together with the version string
the lockfile records afterwards (unchanged except on a completed update). -/
def update_flow (installedVersion : String) (tags : List String)
    (explicitVersion : Option String) : UpdateOutcome × String :=
  let parsed := tags.filterMap parseTag
  match parsed with
  | [] => (.noTagsFound, installedVersion)
  | _ =>
    let target : Option Semver :=
      match explicitVersion with
      | some ev =>
        match parseTag ev with
        | some v => if parsed.contains v then some v else none
        | none => none
      | none => maxSemver parsed
    match target with
    | none => (.versionNotFound, installedVersion)
    | some t =>
      if parseSemver installedVersion = some t then (.upToDate, installedVersion)
      else (.updated t, t.render)

/-- Whether an event is a file copy (the only filesystem mutation of
`install_package`). -/
def isCopyEv : Event → Bool
  | .copyEv _ => true
  | _ => false

/-- A test agent whose `name` property is the capitalised `Claude`
(registration case-folds it). -/
def claudeCapAgent : AgentImpl :=
  { name := "Claude", display_name := "Claude", directory := ".claude" }

/-- A second test agent whose `name` property is the lowercase `claude`. -/
def claudeLowAgent : AgentImpl :=
  { name := "claude", display_name := "claude", directory := ".claude2" }

/-- A test agent named `x`, for exercising duplicate registration. -/
def xAgent : AgentImpl :=
  { name := "x", display_name := "X", directory := ".x" }

/-- A test agent whose case-folded name collides with `x`. -/
def xCapAgent : AgentImpl :=
  { name := "X", display_name := "X2", directory := ".x2" }

/-- A test agent with a non-identity group-folder remapping
(`rules ↦ project_rules`), exercising `get_group_folder`. -/
def remapAgent : AgentImpl :=
  { name := "custom", display_name := "Custom", directory := ".agent",
    SUPPORTED_GROUPS := ["rules"],
    get_group_folder := fun g => if g = "rules" then "project_rules" else g }

end Dumpty

namespace Dumpty

/-! ## Helper lemmas -/

/-- Overwriting the same path with the same content twice is the same as
once. -/
theorem fsWrite_idem (fs : FS) (p : FsPath) (c : Content) :
    fsWrite (fsWrite fs p c) p c = fsWrite fs p c := by
  simp [fsWrite, List.filter_filter]

/-- After removing every file under a directory, nothing is under it. -/
theorem dirOccupied_filter_false (fs : FS) (d : FsPath) :
    dirOccupied (fs.filter fun e => !(d.isPrefixOf e.1)) d = false := by
  simp only [dirOccupied, List.any_eq_false]
  intro e he
  rcases List.mem_filter.mp he with ⟨_, hd⟩
  simp only [Bool.not_eq_true'] at hd
  simp [hd]

/-- The copy loop's trace holds only copy events. -/
theorem install_loop_trace_copies (root : FsPath) (agent : AgentImpl)
    (pkg : String) (fs : FS) (files : List SrcFile) :
    ((install_loop root agent pkg fs files).1.all isCopyEv) = true := by
  induction files generalizing fs with
  | nil => rfl
  | cons f rest ih =>
    cases hc : f.content with
    | none => simp [install_loop, hc]
    | some c => simp [install_loop, hc, isCopyEv, ih]

/-- The copy loop succeeds exactly when every source file's content is
readable. -/
theorem install_loop_isOk (root : FsPath) (agent : AgentImpl)
    (pkg : String) (fs : FS) (files : List SrcFile) :
    (install_loop root agent pkg fs files).2.toBool
      = files.all fun f => f.content.isSome := by
  induction files generalizing fs with
  | nil => rfl
  | cons f rest ih =>
    cases hc : f.content with
    | none => simp [install_loop, hc, Except.toBool, Except.isOk]
    | some c =>
      simp only [install_loop, hc, List.all_cons, Option.isSome_some,
        Bool.true_and]
      rw [← ih (install_file fs root c agent pkg f.installed_path f.group).1]
      cases (install_loop root agent pkg
          (install_file fs root c agent pkg f.installed_path f.group).1
          rest).2 <;> rfl

/-! ## Claim theorems -/

/-- C1 counterexample: `install_file` does not refuse a parent-traversal
`installed_path`.  With `installed_path = ../evil.md` under the flat Claude
layout, the computed destination escapes the package directory
`.claude/pkg`, and the call still performs the write there and returns
normally — no path-violation error is signalled before the write. -/
theorem C1_counterexample :
    escapesDir (install_file_package_dir [] claudeAgent "pkg" none)
        (install_file [] [] [7] claudeAgent "pkg" ["..", "evil.md"] none).2.1
      = true
    ∧ (install_file [] [] [7] claudeAgent "pkg" ["..", "evil.md"] none).1
      = [([".claude", "pkg", "..", "evil.md"], [7])]
    ∧ normalizePath
        (install_file [] [] [7] claudeAgent "pkg" ["..", "evil.md"] none).2.1
      = [".claude", "evil.md"] := by
  refine ⟨by decide, by decide, by decide⟩

/-- General characterization behind C1: `install_file` performs no
path-safety check at all — for every input it writes the source content at
`package_dir ++ installed_path` and returns that destination with the
content's checksum, even when `installed_path` escapes the package directory
by parent traversal. -/
theorem install_file_unchecked_dest (fs : FS) (root : FsPath) (c : Content)
    (agent : AgentImpl) (pkg : String) (ip : FsPath) (g : Option String) :
    install_file fs root c agent pkg ip g
      = (fsWrite fs (install_file_package_dir root agent pkg g ++ ip) c,
          install_file_package_dir root agent pkg g ++ ip,
          calculate_checksum c) := by
  cases g <;> simp [install_file, install_file_package_dir]

/-- C3 counterexample: an adapter whose `get_group_folder` remaps
`rules ↦ project_rules` is not honored by `install_file`: the code places
the file under the raw group name `rules`, while the spec's resolution
places it under `project_rules`. -/
theorem C3_counterexample :
    (install_file [] [] [7] remapAgent "pkg" ["a.md"] (some "rules")).2.1
      = [".agent", "rules", "pkg", "a.md"]
    ∧ resolve_dest_spec [] remapAgent "pkg" ["a.md"] (some "rules")
      = [".agent", "project_rules", "pkg", "a.md"]
    ∧ [".agent", "rules", "pkg", "a.md"]
        ≠ [".agent", "project_rules", "pkg", "a.md"] := by
  refine ⟨rfl, rfl, by decide⟩

/-- C3 amended: `install_file`'s destination uses the raw group name —
`agent_dir / group / package_name / installed_path` when a group is present
(`get_group_folder` is not consulted, so an adapter's remapping is not
honored), and `agent_dir / package_name / installed_path` when no group is
given. -/
theorem C3_amended (fs : FS) (root : FsPath) (c : Content) (agent : AgentImpl)
    (pkg : String) (ip : FsPath) (g : String) :
    (install_file fs root c agent pkg ip (some g)).2.1
        = root ++ [agent.directory, g, pkg] ++ ip
    ∧ (install_file fs root c agent pkg ip none).2.1
        = root ++ [agent.directory, pkg] ++ ip := by
  exact ⟨by simp [install_file], by simp [install_file]⟩

/-- C6: installing the same file twice with the same arguments and unchanged
source content is deterministic — the second `install_file` call returns the
same destination path and the same checksum, and leaves the filesystem
exactly as the first call did. -/
theorem C6_idempotent_install (fs : FS) (root : FsPath) (c : Content)
    (agent : AgentImpl) (pkg : String) (ip : FsPath) (g : Option String) :
    (install_file (install_file fs root c agent pkg ip g).1
          root c agent pkg ip g).2.1
        = (install_file fs root c agent pkg ip g).2.1
    ∧ (install_file (install_file fs root c agent pkg ip g).1
          root c agent pkg ip g).2.2
        = (install_file fs root c agent pkg ip g).2.2
    ∧ (install_file (install_file fs root c agent pkg ip g).1
          root c agent pkg ip g).1
        = (install_file fs root c agent pkg ip g).1 := by
  refine ⟨rfl, rfl, ?_⟩
  cases g <;> exact fsWrite_idem ..

/-- C7 (modelled from the spec, §4.5): with fetched tags
`v0.1.0 … v2.0.0` and installed version `1.0.0`, an unversioned update
selects `2.0.0`; requesting `v1.1.0` selects `1.1.0` regardless of the
latest tag; requesting the absent `v9.9.9` ends in the version-not-found
state and leaves the lockfile's recorded version unchanged at `1.0.0`. -/
theorem C7_update_selection :
    update_flow "1.0.0" ["v0.1.0", "v0.2.0", "v1.0.0", "v1.1.0", "v2.0.0"]
        none
      = (.updated ⟨2, 0, 0⟩, "2.0.0")
    ∧ update_flow "1.0.0" ["v0.1.0", "v0.2.0", "v1.0.0", "v1.1.0", "v2.0.0"]
        (some "v1.1.0")
      = (.updated ⟨1, 1, 0⟩, "1.1.0")
    ∧ update_flow "1.0.0" ["v0.1.0", "v0.2.0", "v1.0.0", "v1.1.0", "v2.0.0"]
        (some "v9.9.9")
      = (.versionNotFound, "1.0.0") := by
  refine ⟨by decide, by decide, by decide⟩

/-- C10: through the public validation interface the Copilot adapter
advertises support for no artifact groups: `validate_artifact_group`
consults `SUPPORTED_GROUPS` (inherited empty from the base class), while the
categories Copilot declares — including `prompts`, `agents`, `instructions`
and `chatmodes` — live only in its `SUPPORTED_TYPES` attribute, so
validation returns `false` for every group. -/
theorem C10_copilot_validates_no_group (g : String) :
    validate_artifact_group copilotAgent g = false
    ∧ copilotAgent.SUPPORTED_GROUPS = []
    ∧ validate_artifact_group copilotAgent "prompts" = false
    ∧ validate_artifact_group copilotAgent "agents" = false
    ∧ validate_artifact_group copilotAgent "instructions" = false
    ∧ validate_artifact_group copilotAgent "chatmodes" = false
    ∧ copilotSUPPORTED_TYPES.contains "prompts" = true
    ∧ copilotSUPPORTED_TYPES.contains "agents" = true
    ∧ copilotSUPPORTED_TYPES.contains "instructions" = true
    ∧ copilotSUPPORTED_TYPES.contains "chatmodes" = true := by
  refine ⟨rfl, rfl, rfl, rfl, rfl, rfl, by decide, by decide, by decide,
    by decide⟩

/-- C4: hook ordering.  For install: the event trace is exactly
`pre_install`, then the copy events of the loop (nothing but copies), then
`post_install` — the latter present exactly when the call succeeded; the
call succeeds exactly when every individual copy does, so a failing copy
aborts the call, suppresses `post_install`, and the failure propagates.  For
uninstall: the trace is either empty or exactly `pre_uninstall`, then the
subtree removal, then `post_uninstall`, in that order. -/
theorem C4_hook_ordering (fs : FS) (root : FsPath) (agent : AgentImpl)
    (pkg : String) (files : List SrcFile) (fs' : FS) :
    (install_package fs root agent pkg files).1
        = Event.preInstallEv (root ++ [agent.directory] ++ [pkg])
            (install_paths agent pkg files)
          :: (install_loop root agent pkg fs files).1
          ++ (cond (install_package fs root agent pkg files).2.toBool
              [Event.postInstallEv (root ++ [agent.directory] ++ [pkg])
                (install_paths agent pkg files)] [])
    ∧ ((install_loop root agent pkg fs files).1.all isCopyEv) = true
    ∧ (install_package fs root agent pkg files).2.toBool
        = files.all (fun f => f.content.isSome)
    ∧ ((uninstall_package fs' root agent pkg).2 = []
        ∨ ∃ ps, (uninstall_package fs' root agent pkg).2
            = [Event.preUninstallEv (root ++ [agent.directory, pkg]) ps,
               Event.removeTreeEv (root ++ [agent.directory, pkg]),
               Event.postUninstallEv (root ++ [agent.directory, pkg]) ps]) := by
  refine ⟨?_, install_loop_trace_copies .., ?_, ?_⟩
  · rcases h : (install_loop root agent pkg fs files).2 with e | s <;>
      simp [install_package, h, Except.toBool]
  · rw [← install_loop_isOk root agent pkg fs files]
    rcases h : (install_loop root agent pkg fs files).2 with e | s <;>
      simp [install_package, h, Except.toBool]
  · by_cases h : dirOccupied fs' (root ++ [agent.directory, pkg]) = true
    · refine Or.inr
        ⟨(fs'.filter fun e =>
              (root ++ [agent.directory, pkg]).isPrefixOf e.1).map fun e =>
            if root.isPrefixOf e.1 then e.1.drop root.length else e.1, ?_⟩
      simp [uninstall_package, h]
    · simp only [Bool.not_eq_true] at h
      exact Or.inl (by simp [uninstall_package, h])

/-- C5: uninstall is idempotent — when the package directory does not exist
the call returns with no error, no hook events and no filesystem change; and
a second uninstall after any first one (in particular after an
install-then-uninstall) leaves the filesystem exactly as the first left it,
with no further events. -/
theorem C5_uninstall_idempotent (fs : FS) (root : FsPath) (agent : AgentImpl)
    (pkg : String)
    (h : dirOccupied fs (root ++ [agent.directory, pkg]) = false) :
    uninstall_package fs root agent pkg = (fs, [])
    ∧ ∀ fs2 : FS,
        uninstall_package (uninstall_package fs2 root agent pkg).1
            root agent pkg
          = ((uninstall_package fs2 root agent pkg).1, []) := by
  constructor
  · simp [uninstall_package, h]
  · intro fs2
    by_cases h2 : dirOccupied fs2 (root ++ [agent.directory, pkg]) = true
    · have hfst : (uninstall_package fs2 root agent pkg).1
          = fs2.filter fun e =>
              !((root ++ [agent.directory, pkg]).isPrefixOf e.1) := by
        simp [uninstall_package, h2]
      rw [hfst]
      have h3 := dirOccupied_filter_false fs2 (root ++ [agent.directory, pkg])
      simp [uninstall_package, h3]
    · simp only [Bool.not_eq_true] at h2
      have hfst : uninstall_package fs2 root agent pkg = (fs2, []) := by
        simp [uninstall_package, h2]
      rw [hfst]
      simp [uninstall_package, h2]

/-- C5 witness: a concrete no-op uninstall (empty filesystem, Claude agent)
and the second-call idempotence at that instance. -/
theorem C5_witness :
    (dirOccupied [] ([] ++ [claudeAgent.directory, "pkg"]) = false)
    ∧ (uninstall_package [] [] claudeAgent "pkg" = ([], [])
      ∧ ∀ fs2 : FS,
          uninstall_package (uninstall_package fs2 [] claudeAgent "pkg").1
              [] claudeAgent "pkg"
            = ((uninstall_package fs2 [] claudeAgent "pkg").1, [])) :=
  ⟨by decide, C5_uninstall_idempotent [] [] claudeAgent "pkg" (by decide)⟩

/-- C2: at a concrete two-group install the directory argument
`install_package` hands to `pre_install` is the single flat path
`.github/pkg` — not the set of distinct per-group package directories
`[.github/prompts/pkg, .github/modes/pkg]` that the spec (and the hook
signature of `base.py`) prescribes; the flat path is not even one of those
directories. -/
theorem C2_code_divergence :
    (install_package [] [] copilotAgent "pkg"
        [⟨some [1], ["a.md"], some "prompts"⟩,
         ⟨some [2], ["b.md"], some "modes"⟩]).1.head?
      = some (.preInstallEv [".github", "pkg"]
          [[".github", "prompts", "pkg", "a.md"],
           [".github", "modes", "pkg", "b.md"]])
    ∧ spec_install_dirs [] copilotAgent "pkg"
        [⟨some [1], ["a.md"], some "prompts"⟩,
         ⟨some [2], ["b.md"], some "modes"⟩]
      = [[".github", "prompts", "pkg"], [".github", "modes", "pkg"]]
    ∧ ¬ [".github", "pkg"] ∈ spec_install_dirs [] copilotAgent "pkg"
        [⟨some [1], ["a.md"], some "prompts"⟩,
         ⟨some [2], ["b.md"], some "modes"⟩] := by
  refine ⟨by decide, by decide, by decide⟩

/-- C8: `register` rejects a non-conforming argument with a type error, and
rejects a duplicate case-folded name with a duplicate error leaving the
table unchanged; concretely, registering an agent named `Claude` and then
one named `claude` fails on the second call and the registry retains only
the first. -/
theorem C8_registry_uniqueness (reg : AgentRegistry) (a : AgentImpl)
    (h : (reg.agents.map Prod.fst).contains (strToLower a.name) = true) :
    register reg (.agentObj a) = (reg, some (.dupErr (strToLower a.name)))
    ∧ (∀ r : AgentRegistry, register r .nonAgent = (r, some .typeErr))
    ∧ (register ⟨[]⟩ (.agentObj claudeCapAgent)).1.agents
      = [("claude", claudeCapAgent)]
    ∧ register (register ⟨[]⟩ (.agentObj claudeCapAgent)).1
        (.agentObj claudeLowAgent)
      = ((register ⟨[]⟩ (.agentObj claudeCapAgent)).1,
         some (.dupErr "claude")) := by
  refine ⟨?_, fun r => rfl, ?_, ?_⟩
  · have hdef : register reg (.agentObj a)
        = if (reg.agents.map Prod.fst).contains (strToLower a.name)
          then (reg, some (.dupErr (strToLower a.name)))
          else (⟨reg.agents ++ [(strToLower a.name, a)]⟩, none) := rfl
    rw [hdef, h]
    simp
  · rfl
  · rfl

/-- C8 witness: the duplicate-name rejection at a concrete registry holding
`x`, with the remaining conjuncts instantiated. -/
theorem C8_witness :
    ((AgentRegistry.mk [("x", xAgent)] |>.agents.map Prod.fst).contains
        (strToLower xCapAgent.name) = true)
    ∧ (register ⟨[("x", xAgent)]⟩ (.agentObj xCapAgent)
        = (⟨[("x", xAgent)]⟩, some (.dupErr (strToLower xCapAgent.name)))
      ∧ (∀ r : AgentRegistry, register r .nonAgent = (r, some .typeErr))
      ∧ (register ⟨[]⟩ (.agentObj claudeCapAgent)).1.agents
        = [("claude", claudeCapAgent)]
      ∧ register (register ⟨[]⟩ (.agentObj claudeCapAgent)).1
          (.agentObj claudeLowAgent)
        = ((register ⟨[]⟩ (.agentObj claudeCapAgent)).1,
           some (.dupErr "claude"))) :=
  ⟨by decide,
    C8_registry_uniqueness ⟨[("x", xAgent)]⟩ xCapAgent (by decide)⟩

/-- C9: `is_configured` is true exactly when the agent's default directory
path exists and is a directory; concretely it is true for a directory at
`.claude`, false for a regular file there, and false when the path is
absent — never an error. -/
theorem C9_is_configured (t : FsTree) (root : FsPath) :
    claude_is_configured t root
        = (pathKind t (root ++ [".claude"]) == some .dir)
    ∧ claude_is_configured [([".claude"], .dir)] [] = true
    ∧ claude_is_configured [([".claude"], .file)] [] = false
    ∧ claude_is_configured ([] : FsTree) [] = false := by
  refine ⟨?_, by decide, by decide, by decide⟩
  unfold claude_is_configured pathExists pathIsDir
  cases h : pathKind t (root ++ [claudeAgent.directory]) <;> simp_all [claudeAgent]

end Dumpty
